import Mathlib

/-!
Verification development for the morpheus-spatial counterfactual pipeline.

The repository's artifact under analysis is the tutorial notebook
`examples/tutorial.ipynb`, which calls into the morpheus counterfactual
engine (`mp.get_counterfactual`).  The notebook's own helper code
(`download_and_unzip`, the `select_metadata` filter) is embedded directly
from its source.  The engine components (Nearest-Neighbor Index,
Perturbation Optimizer, Constraint Scheduler, Parallel Dispatch Layer) are
not present in the artifact; they are modelled from the design
specification, as noted on each definition.
-/

/-- One labeled image patch of the ReferencePool: an instance id, a class
label, and the flattened per-channel pixel intensities (modelled over ℚ). -/
structure RefInstance where
  id : Nat
  label : Nat
  pixels : List ℚ
deriving DecidableEq, Repr

/-- Failure taxonomy of the engine (spec §7). -/
inductive FailureReason
  | NoCounterfactualFound
  | EmptyPoolError
  | WorkerFailure
deriving DecidableEq, Repr

/-- Squared Euclidean distance over flattened per-channel intensities
(spec §4.1's configured distance metric). -/
def dist2 (a b : List ℚ) : ℚ :=
  (List.zipWith (fun x y => (x - y) * (x - y)) a b).sum

/-- Modelled from the spec: the Nearest-Neighbor Index's comparison step,
choosing between the current best and a candidate reference instance, with
a deterministic tie-break by lowest instance id on distance ties.  The
index implementation itself (`nearest`) is absent from the artifact. -/
def closer (q : List ℚ) (best cand : RefInstance) : RefInstance :=
  if dist2 q cand.pixels < dist2 q best.pixels ∨
      (dist2 q cand.pixels = dist2 q best.pixels ∧ cand.id < best.id) then
    cand
  else
    best

/-- Modelled from the spec: `nearest(instance, target_class)` of the
Nearest-Neighbor Index (spec §4.1), absent from the artifact.  Returns the
reference instance of `target_class` minimizing the configured distance to
the query, and fails with `EmptyPoolError` when the pool holds no instance
of `target_class`. -/
def nearest (pool : List RefInstance) (q : List ℚ) (target_class : Nat) :
    Except FailureReason RefInstance :=
  match pool.filter (fun r => r.label == target_class) with
  | [] => .error .EmptyPoolError
  | x :: xs => .ok (xs.foldl (closer q) x)

theorem closer_cases (q : List ℚ) (b c : RefInstance) :
    closer q b c = b ∨ closer q b c = c := by
  unfold closer
  split <;> simp

theorem closer_dist_le_left (q : List ℚ) (b c : RefInstance) :
    dist2 q (closer q b c).pixels ≤ dist2 q b.pixels := by
  unfold closer
  split
  case isTrue h =>
    rcases h with h | h
    · exact le_of_lt h
    · exact le_of_eq h.1
  case isFalse h => exact le_refl _

theorem closer_dist_le_right (q : List ℚ) (b c : RefInstance) :
    dist2 q (closer q b c).pixels ≤ dist2 q c.pixels := by
  unfold closer
  split
  case isTrue h => exact le_refl _
  case isFalse h =>
    push_neg at h
    exact h.1

theorem closer_tiebreak (q : List ℚ) (b c : RefInstance)
    (hb : dist2 q b.pixels = dist2 q (closer q b c).pixels) :
    (closer q b c).id ≤ b.id := by
  by_cases h : dist2 q c.pixels < dist2 q b.pixels ∨
      (dist2 q c.pixels = dist2 q b.pixels ∧ c.id < b.id)
  · simp only [closer, if_pos h] at hb ⊢
    rcases h with h | h
    · exact absurd (hb ▸ h) (lt_irrefl _)
    · exact le_of_lt h.2
  · simp only [closer, if_neg h]
    exact le_refl _

theorem closer_tiebreak_right (q : List ℚ) (b c : RefInstance)
    (hc : dist2 q c.pixels = dist2 q (closer q b c).pixels) :
    (closer q b c).id ≤ c.id := by
  by_cases h : dist2 q c.pixels < dist2 q b.pixels ∨
      (dist2 q c.pixels = dist2 q b.pixels ∧ c.id < b.id)
  · simp only [closer, if_pos h]
    exact le_refl _
  · simp only [closer, if_neg h] at hc ⊢
    push_neg at h
    exact h.2 hc

/-- The foldl over `closer` yields an element of the processed list that
minimizes distance and, among distance ties, has the least id. -/
theorem foldl_closer_spec (q : List ℚ) (xs : List RefInstance)
    (x : RefInstance) :
    (xs.foldl (closer q) x = x ∨ xs.foldl (closer q) x ∈ xs) ∧
    (∀ s, (s = x ∨ s ∈ xs) →
      dist2 q (xs.foldl (closer q) x).pixels ≤ dist2 q s.pixels ∧
      (dist2 q s.pixels = dist2 q (xs.foldl (closer q) x).pixels →
        (xs.foldl (closer q) x).id ≤ s.id)) := by
  induction xs generalizing x with
  | nil =>
    refine ⟨Or.inl rfl, ?_⟩
    rintro s (rfl | hs)
    · exact ⟨le_refl _, fun _ => le_refl _⟩
    · exact absurd hs (List.not_mem_nil s)
  | cons y ys ih =>
    simp only [List.foldl_cons]
    obtain ⟨hmem, hmin⟩ := ih (closer q x y)
    constructor
    · rcases hmem with hm | hm
      · rcases closer_cases q x y with hc | hc
        · exact Or.inl (hm.trans hc)
        · exact Or.inr (by rw [hm, hc]; exact List.mem_cons_self y ys)
      · exact Or.inr (List.mem_cons_of_mem y hm)
    · rintro s (rfl | hs)
      · obtain ⟨hd, ht⟩ := hmin (closer q s y) (Or.inl rfl)
        refine ⟨le_trans hd (closer_dist_le_left q s y), fun he => ?_⟩
        have hd2 : dist2 q (closer q s y).pixels = dist2 q s.pixels :=
          le_antisymm (closer_dist_le_left q s y) ((le_of_eq he).trans hd)
        exact le_trans (ht (hd2.trans he)) (closer_tiebreak q s y hd2.symm)
      · rcases List.mem_cons.mp hs with rfl | hs2
        · obtain ⟨hd, ht⟩ := hmin (closer q x s) (Or.inl rfl)
          refine ⟨le_trans hd (closer_dist_le_right q x s), fun he => ?_⟩
          have hd2 : dist2 q (closer q x s).pixels = dist2 q s.pixels :=
            le_antisymm (closer_dist_le_right q x s) ((le_of_eq he).trans hd)
          exact le_trans (ht (hd2.trans he))
            (closer_tiebreak_right q x s hd2.symm)
        · exact hmin s (Or.inr hs2)

/-- C2: `nearest(instance, target_class)` returns the reference instance of
`target_class` minimizing the configured distance metric to the query, and
fails with `EmptyPoolError` if and only if no reference instances of
`target_class` exist in the ReferencePool. -/
theorem nearest_min_and_empty_iff (pool : List RefInstance) (q : List ℚ)
    (c : Nat) :
    (nearest pool q c = .error .EmptyPoolError ↔
      pool.filter (fun r => r.label == c) = []) ∧
    (∀ r, nearest pool q c = .ok r →
      r ∈ pool ∧ r.label = c ∧
      ∀ s ∈ pool, s.label = c → dist2 q r.pixels ≤ dist2 q s.pixels) := by
  constructor
  · unfold nearest
    constructor
    · intro h
      cases hf : pool.filter (fun r => r.label == c) with
      | nil => rfl
      | cons x xs => rw [hf] at h; exact absurd h (by simp)
    · intro h; rw [h]
  · intro r hr
    unfold nearest at hr
    cases hf : pool.filter (fun r => r.label == c) with
    | nil => rw [hf] at hr; exact absurd hr (by simp)
    | cons x xs =>
      rw [hf] at hr
      simp only [Except.ok.injEq] at hr
      obtain ⟨hmem, hmin⟩ := foldl_closer_spec q xs x
      have hrf : r ∈ pool.filter (fun r => r.label == c) := by
        rw [hf]
        rcases hmem with hm | hm
        · rw [← hr, hm]; exact List.mem_cons_self x xs
        · rw [← hr]; exact List.mem_cons_of_mem x hm
      have hrl := List.mem_filter.mp hrf
      refine ⟨hrl.1, by simpa using hrl.2, ?_⟩
      intro s hs hsl
      have hsf : s ∈ pool.filter (fun r => r.label == c) :=
        List.mem_filter.mpr ⟨hs, by simpa using hsl⟩
      rw [hf] at hsf
      rcases List.mem_cons.mp hsf with rfl | hs2
      · exact hr ▸ (hmin s (Or.inl rfl)).1
      · exact hr ▸ (hmin s (Or.inr hs2)).1

/-- Witness for C2 on a concrete pool: the query resolves to the closest
reference instance of the target class. -/
theorem nearest_min_and_empty_iff_witness :
    nearest [RefInstance.mk 0 1 [0], RefInstance.mk 1 1 [3],
      RefInstance.mk 2 0 [1]] [1] 1 = .ok (RefInstance.mk 0 1 [0]) ∧
    (RefInstance.mk 0 1 [0] ∈ [RefInstance.mk 0 1 [0],
        RefInstance.mk 1 1 [3], RefInstance.mk 2 0 [1]] ∧
      (RefInstance.mk 0 1 [0]).label = 1 ∧
      ∀ s ∈ [RefInstance.mk 0 1 [0], RefInstance.mk 1 1 [3],
        RefInstance.mk 2 0 [1]], s.label = 1 →
          dist2 [1] (RefInstance.mk 0 1 [0]).pixels ≤ dist2 [1] s.pixels) := by
  have hok : nearest [RefInstance.mk 0 1 [0], RefInstance.mk 1 1 [3],
      RefInstance.mk 2 0 [1]] [1] 1 = .ok (RefInstance.mk 0 1 [0]) := by
    norm_num [nearest, closer, dist2, List.filter, List.foldl]
  exact ⟨hok, (nearest_min_and_empty_iff
    [RefInstance.mk 0 1 [0], RefInstance.mk 1 1 [3],
     RefInstance.mk 2 0 [1]] [1] 1).2 (RefInstance.mk 0 1 [0]) hok⟩

/-- C8: the Nearest-Neighbor query is deterministic — asked twice with the
same instance and target class it returns the same reference instance — and
on distance ties the returned instance has the lowest instance id. -/
theorem nearest_idempotent_tiebreak (pool : List RefInstance) (q : List ℚ)
    (c : Nat) :
    nearest pool q c = nearest pool q c ∧
    (∀ r, nearest pool q c = .ok r →
      ∀ s ∈ pool, s.label = c →
        dist2 q s.pixels = dist2 q r.pixels → r.id ≤ s.id) := by
  refine ⟨rfl, ?_⟩
  intro r hr s hs hsl hd
  unfold nearest at hr
  cases hf : pool.filter (fun r => r.label == c) with
  | nil => rw [hf] at hr; exact absurd hr (by simp)
  | cons x xs =>
    rw [hf] at hr
    simp only [Except.ok.injEq] at hr
    obtain ⟨_, hmin⟩ := foldl_closer_spec q xs x
    have hsf : s ∈ pool.filter (fun r => r.label == c) :=
      List.mem_filter.mpr ⟨hs, by simpa using hsl⟩
    rw [hf] at hsf
    rcases List.mem_cons.mp hsf with rfl | hs2
    · exact hr ▸ (hmin s (Or.inl rfl)).2 (hr ▸ hd)
    · exact hr ▸ (hmin s (Or.inr hs2)).2 (hr ▸ hd)

/-- Witness for C8: a pool with a distance tie, resolved to the lower id. -/
theorem nearest_idempotent_tiebreak_witness :
    nearest [RefInstance.mk 5 1 [2], RefInstance.mk 3 1 [0]] [1] 1 =
      nearest [RefInstance.mk 5 1 [2], RefInstance.mk 3 1 [0]] [1] 1 ∧
    (RefInstance.mk 3 1 [0]).id ≤ (RefInstance.mk 5 1 [2]).id := by
  refine ⟨rfl, ?_⟩
  refine (nearest_idempotent_tiebreak
      [RefInstance.mk 5 1 [2], RefInstance.mk 3 1 [0]] [1] 1).2
    (RefInstance.mk 3 1 [0]) ?_ (RefInstance.mk 5 1 [2]) ?_ rfl ?_
  · norm_num [nearest, closer, dist2, List.filter, List.foldl]
  · simp
  · norm_num [dist2]

/-- Pixel data of a CounterfactualCandidate: an association list from
channel name to the channel's flattened pixel intensities. -/
abbrev CandPixels := List (String × List ℚ)

/-- Modelled from the spec: one perturbation update of the Perturbation
Optimizer (spec §4.2), absent from the artifact.  The update `d` is applied
only to channels in `channel_to_perturb`; every other channel is returned
untouched. -/
def perturbPixels (channel_to_perturb : List String)
    (d : String → List ℚ → List ℚ) (cand : CandPixels) : CandPixels :=
  cand.map (fun p => if p.1 ∈ channel_to_perturb then (p.1, d p.1 p.2) else p)

/-- Working state of one Perturbation Optimizer run: current candidate,
iterations executed, iterations without improvement, best probability seen. -/
structure OptState where
  cand : CandPixels
  iter : ℕ
  noImprove : ℕ
  bestProb : ℚ

/-- Modelled from the spec: the success threshold derived from `kappa`
(spec §4.2's "kappa-related margin"); the derivation itself is absent from
the artifact. -/
def successThreshold (kappa : ℚ) : ℚ := 1 / 2 + kappa

/-- Modelled from the spec: the early-termination test of the Perturbation
Optimizer (spec §4.2): the target-class probability exceeds the success
threshold and no improvement was achieved for a patience window. -/
def shouldStop (predict : CandPixels → ℚ) (kappa : ℚ) (patience : ℕ)
    (st : OptState) : Bool :=
  decide (successThreshold kappa < predict st.cand) &&
    decide (patience ≤ st.noImprove)

/-- Modelled from the spec: one iteration of the Perturbation Optimizer
(spec §4.2), absent from the artifact: perturb the restricted channels,
query the classifier, update the patience bookkeeping. -/
def optStep (predict : CandPixels → ℚ) (channel_to_perturb : List String)
    (delta : ℕ → String → List ℚ → List ℚ) (st : OptState) : OptState :=
  let cand' := perturbPixels channel_to_perturb (delta st.iter) st.cand
  let p := predict cand'
  { cand := cand'
    iter := st.iter + 1
    noImprove := if st.bestProb < p then 0 else st.noImprove + 1
    bestProb := max st.bestProb p }

/-- Modelled from the spec: the fuel-bounded iteration loop of the
Perturbation Optimizer (spec §4.2), absent from the artifact. -/
def optLoop (predict : CandPixels → ℚ) (channel_to_perturb : List String)
    (delta : ℕ → String → List ℚ → List ℚ) (kappa : ℚ) (patience : ℕ) :
    ℕ → OptState → OptState
  | 0, st => st
  | fuel + 1, st =>
    if shouldStop predict kappa patience st then st
    else optLoop predict channel_to_perturb delta kappa patience fuel
      (optStep predict channel_to_perturb delta st)

/-- Initial optimizer state: the candidate starts as the instance itself. -/
def initOptState (predict : CandPixels → ℚ) (inst : CandPixels) : OptState :=
  ⟨inst, 0, 0, predict inst⟩

/-- Modelled from the spec: `optimize(instance, classifier, …)` of the
Perturbation Optimizer (spec §4.2), absent from the artifact.  Returns the
final candidate, its achieved probability, and the iterations executed. -/
def optimize (predict : CandPixels → ℚ) (channel_to_perturb : List String)
    (delta : ℕ → String → List ℚ → List ℚ) (kappa : ℚ)
    (patience max_iterations : ℕ) (inst : CandPixels) :
    CandPixels × ℚ × ℕ :=
  let fin := optLoop predict channel_to_perturb delta kappa patience
    max_iterations (initOptState predict inst)
  (fin.cand, predict fin.cand, fin.iter)

theorem lookup_perturbPixels (channel_to_perturb : List String)
    (d : String → List ℚ → List ℚ) (cand : CandPixels) (ch : String)
    (h : ch ∉ channel_to_perturb) :
    (perturbPixels channel_to_perturb d cand).lookup ch = cand.lookup ch := by
  induction cand with
  | nil => rfl
  | cons p ps ih =>
    simp only [perturbPixels, List.map_cons] at ih ⊢
    by_cases hin : p.1 ∈ channel_to_perturb
    · rw [if_pos hin]
      have hne : (ch == p.1) = false := by
        simp only [beq_eq_false_iff_ne]
        intro he
        exact h (he ▸ hin)
      simp [List.lookup, hne, ih]
    · rw [if_neg hin]
      cases hb : ch == p.1 <;> simp [List.lookup, hb, ih]

theorem optLoop_preserves_lookup (predict : CandPixels → ℚ)
    (channel_to_perturb : List String)
    (delta : ℕ → String → List ℚ → List ℚ) (kappa : ℚ) (patience : ℕ)
    (ch : String) (h : ch ∉ channel_to_perturb) :
    ∀ (fuel : ℕ) (st : OptState),
      ((optLoop predict channel_to_perturb delta kappa patience fuel
          st).cand).lookup ch = st.cand.lookup ch
  | 0, st => rfl
  | fuel + 1, st => by
    rw [optLoop]
    split
    · rfl
    · rw [optLoop_preserves_lookup predict channel_to_perturb delta kappa
        patience ch h fuel _]
      exact lookup_perturbPixels channel_to_perturb (delta st.iter) st.cand
        ch h

/-- C1: perturbation is confined to `channel_to_perturb` — for every
channel outside that set, the candidate's pixel values equal the input
instance's at every iteration `k` of the optimization and in the final
output of `optimize`. -/
theorem optimize_channel_confinement (predict : CandPixels → ℚ)
    (channel_to_perturb : List String)
    (delta : ℕ → String → List ℚ → List ℚ) (kappa : ℚ)
    (patience max_iterations k : ℕ) (inst : CandPixels) (ch : String)
    (h : ch ∉ channel_to_perturb) :
    (((optStep predict channel_to_perturb delta)^[k]
        (initOptState predict inst)).cand).lookup ch = inst.lookup ch ∧
    ((optimize predict channel_to_perturb delta kappa patience
        max_iterations inst).1).lookup ch = inst.lookup ch := by
  constructor
  · induction k with
    | zero => rfl
    | succ n ih =>
      rw [Function.iterate_succ_apply']
      rw [show ((optStep predict channel_to_perturb delta)
          ((optStep predict channel_to_perturb delta)^[n]
            (initOptState predict inst))).cand
          = perturbPixels channel_to_perturb
            (delta ((optStep predict channel_to_perturb delta)^[n]
              (initOptState predict inst)).iter)
            ((optStep predict channel_to_perturb delta)^[n]
              (initOptState predict inst)).cand from rfl]
      rw [lookup_perturbPixels _ _ _ _ h]
      exact ih
  · rw [show (optimize predict channel_to_perturb delta kappa patience
        max_iterations inst).1
        = (optLoop predict channel_to_perturb delta kappa patience
          max_iterations (initOptState predict inst)).cand from rfl]
    rw [optLoop_preserves_lookup predict channel_to_perturb delta kappa
      patience ch h max_iterations _]
    rfl

/-- Witness for C1 at a concrete instance and channel set. -/
theorem optimize_channel_confinement_witness :
    "B" ∉ ["A"] ∧
    ((((optStep (fun _ => 1) ["A"] (fun _ _ v => v))^[2]
        (initOptState (fun _ => 1) [("A", [1]), ("B", [2])])).cand).lookup "B"
      = ([("A", [1]), ("B", [2])] : CandPixels).lookup "B" ∧
    ((optimize (fun _ => 1) ["A"] (fun _ _ v => v) 0 1 3
        [("A", [1]), ("B", [2])]).1).lookup "B"
      = ([("A", [1]), ("B", [2])] : CandPixels).lookup "B") :=
  ⟨by simp, optimize_channel_confinement (fun _ => 1) ["A"] (fun _ _ v => v)
    0 1 3 2 [("A", [1]), ("B", [2])] "B" (by simp)⟩

theorem optLoop_iter_le (predict : CandPixels → ℚ)
    (channel_to_perturb : List String)
    (delta : ℕ → String → List ℚ → List ℚ) (kappa : ℚ) (patience : ℕ) :
    ∀ (fuel : ℕ) (st : OptState),
      (optLoop predict channel_to_perturb delta kappa patience fuel
        st).iter ≤ st.iter + fuel
  | 0, st => le_refl _
  | fuel + 1, st => by
    rw [optLoop]
    split
    · exact Nat.le_add_right _ _
    · calc (optLoop predict channel_to_perturb delta kappa patience fuel
            (optStep predict channel_to_perturb delta st)).iter
          ≤ (optStep predict channel_to_perturb delta st).iter + fuel :=
            optLoop_iter_le predict channel_to_perturb delta kappa patience
              fuel _
        _ = st.iter + (fuel + 1) := by
            simp [optStep]
            omega

/-- C7: the optimizer's iteration loop executes at most `max_iterations`
steps, and it stops immediately (consuming no further iteration) as soon as
the kappa-derived success threshold is exceeded with no improvement for the
patience window; the loop is a total function, so every per-instance job
terminates. -/
theorem optimize_bounded_iterations (predict : CandPixels → ℚ)
    (channel_to_perturb : List String)
    (delta : ℕ → String → List ℚ → List ℚ) (kappa : ℚ)
    (patience max_iterations : ℕ) (inst : CandPixels) (fuel : ℕ)
    (st : OptState) (hstop : shouldStop predict kappa patience st = true) :
    (optimize predict channel_to_perturb delta kappa patience
      max_iterations inst).2.2 ≤ max_iterations ∧
    optLoop predict channel_to_perturb delta kappa patience fuel st = st := by
  constructor
  · rw [show (optimize predict channel_to_perturb delta kappa patience
        max_iterations inst).2.2
        = (optLoop predict channel_to_perturb delta kappa patience
          max_iterations (initOptState predict inst)).iter from rfl]
    have := optLoop_iter_le predict channel_to_perturb delta kappa patience
      max_iterations (initOptState predict inst)
    simpa [initOptState] using this
  · cases fuel with
    | zero => rfl
    | succ n => rw [optLoop, if_pos hstop]

/-- Witness for C7 at a concrete stopped state. -/
theorem optimize_bounded_iterations_witness :
    shouldStop (fun _ => 1) 0 0 (initOptState (fun _ => 1) []) = true ∧
    ((optimize (fun _ => 1) [] (fun _ _ v => v) 0 0 5 []).2.2 ≤ 5 ∧
      optLoop (fun _ => 1) [] (fun _ _ v => v) 0 0 4
        (initOptState (fun _ => 1) []) = initOptState (fun _ => 1) []) := by
  have hstop : shouldStop (fun _ => 1) 0 0
      (initOptState (fun _ => 1) []) = true := by
    simp only [shouldStop, initOptState, successThreshold,
      Bool.and_eq_true, decide_eq_true_eq]
    norm_num
  exact ⟨hstop, optimize_bounded_iterations (fun _ => 1) [] (fun _ _ v => v)
    0 0 5 [] 4 (initOptState (fun _ => 1) []) hstop⟩

/-- State of the Constraint Scheduler's bisection over the trade-off
coefficient (spec §3's TradeOffState, §9's explicit `low`/`high`/`current`/
`best_success` state). -/
structure TradeOffState where
  low : ℚ
  high : Option ℚ
  current : ℚ
  best : Option (ℚ × CandPixels × ℚ)

/-- Initial bisection state: the coefficient starts at `c_init`. -/
def initTradeOff (c_init : ℚ) : TradeOffState :=
  ⟨0, none, c_init, none⟩

/-- Modelled from the spec: the Constraint Scheduler's bisection update
after a round whose optimizer run flipped the classifier (spec §4.3, §9);
the exact rule is absent from the artifact, so the standard scheme is used:
record the success (keeping the smallest successful coefficient), move the
upper bracket down to the tested coefficient, and test its midpoint with
the lower bracket next. -/
def updateOnSuccess (s : TradeOffState) (cand : CandPixels) (p : ℚ) :
    TradeOffState :=
  { low := s.low
    high := some s.current
    current := (s.low + s.current) / 2
    best :=
      match s.best with
      | none => some (s.current, cand, p)
      | some b => if s.current ≤ b.1 then some (s.current, cand, p)
                  else some b }

/-- Modelled from the spec: the Constraint Scheduler's bisection update
after a failed round (spec §4.3, §9), absent from the artifact: raise the
lower bracket to the tested coefficient, and test the midpoint with the
upper bracket (or scale the coefficient up while no success has bracketed
it from above). -/
def updateOnFailure (s : TradeOffState) : TradeOffState :=
  { low := s.current
    high := s.high
    current :=
      match s.high with
      | none => s.current * 10
      | some h => (s.current + h) / 2
    best := s.best }

/-- One outer round of the Constraint Scheduler: run the optimizer round at
the current coefficient and apply the matching bisection update. -/
def schedStep (round : ℚ → Option (CandPixels × ℚ)) (s : TradeOffState) :
    TradeOffState :=
  match round s.current with
  | some (cand, p) => updateOnSuccess s cand p
  | none => updateOnFailure s

/-- The scheduler state after `n` rounds starting from `c_init`. -/
def schedStateAt (round : ℚ → Option (CandPixels × ℚ)) (c_init : ℚ) :
    ℕ → TradeOffState
  | 0 => initTradeOff c_init
  | n + 1 => schedStep round (schedStateAt round c_init n)

/-- Terminal per-instance output (spec §3's ResultRecord): a successful
candidate with its achieved probability, or a failure reason. -/
inductive ResultRecord
  | success (cand : CandPixels) (prob : ℚ)
  | failure (reason : FailureReason)
deriving DecidableEq, Repr

/-- Modelled from the spec: `search(instance, classifier, anchor, params)`
of the Constraint Scheduler (spec §4.3), absent from the artifact: run
`c_steps` bisection rounds and return the best success, or a
`NoCounterfactualFound` failure record (a normal return, not an
exception). -/
def search (round : ℚ → Option (CandPixels × ℚ)) (c_init : ℚ)
    (c_steps : ℕ) : ResultRecord :=
  match (schedStateAt round c_init c_steps).best with
  | some (_, cand, p) => .success cand p
  | none => .failure .NoCounterfactualFound

theorem schedStateAt_best_none (round : ℚ → Option (CandPixels × ℚ))
    (c_init : ℚ) (c_steps : ℕ)
    (hfail : ∀ n < c_steps, round (schedStateAt round c_init n).current
      = none) :
    ∀ n ≤ c_steps, (schedStateAt round c_init n).best = none := by
  intro n
  induction n with
  | zero => intro _; rfl
  | succ m ih =>
    intro hm
    rw [schedStateAt, schedStep, hfail m (Nat.lt_of_succ_le hm)]
    rw [updateOnFailure]
    exact ih (Nat.le_of_succ_le hm)

/-- C3: if no round across all `c_steps` outer rounds succeeds in flipping
the classifier, `search` returns a failure ResultRecord with reason
`NoCounterfactualFound`; being a total function into `ResultRecord`, it
raises no exception. -/
theorem search_no_success_yields_failure
    (round : ℚ → Option (CandPixels × ℚ)) (c_init : ℚ) (c_steps : ℕ)
    (hfail : ∀ n < c_steps, round (schedStateAt round c_init n).current
      = none) :
    search round c_init c_steps = .failure .NoCounterfactualFound := by
  rw [search, schedStateAt_best_none round c_init c_steps hfail c_steps
    (le_refl _)]

/-- Witness for C3: a round function that never succeeds. -/
theorem search_no_success_yields_failure_witness :
    (∀ n < 5, (fun _ : ℚ => (none : Option (CandPixels × ℚ)))
      (schedStateAt (fun _ => none) 1000 n).current = none) ∧
    search (fun _ => none) 1000 5 = .failure .NoCounterfactualFound :=
  ⟨fun _ _ => rfl,
    search_no_success_yields_failure (fun _ => none) 1000 5
      (fun _ _ => rfl)⟩

/-- Bisection invariant of the scheduler state: the brackets are ordered,
the tested coefficient lies within them, and it never exceeds the best
successful coefficient found so far. -/
def SchedInv (s : TradeOffState) : Prop :=
  0 ≤ s.low ∧ s.low ≤ s.current ∧
  (∀ h, s.high = some h → s.current ≤ h) ∧
  (∀ b, s.best = some b → s.current ≤ b.1) ∧
  (∀ b, s.best = some b → ∃ h, s.high = some h ∧ h ≤ b.1)

theorem schedInv_init (c_init : ℚ) (hc : 0 ≤ c_init) :
    SchedInv (initTradeOff c_init) := by
  refine ⟨le_refl _, hc, ?_, ?_, ?_⟩
  · intro h hh; exact absurd hh (by simp [initTradeOff])
  · intro b hb; exact absurd hb (by simp [initTradeOff])
  · intro b hb; exact absurd hb (by simp [initTradeOff])

theorem schedInv_step (round : ℚ → Option (CandPixels × ℚ))
    (s : TradeOffState) (hs : SchedInv s) : SchedInv (schedStep round s) := by
  obtain ⟨lo, hi, cur, be⟩ := s
  obtain ⟨h0, hlc, hch, hcb, hhb⟩ := hs
  rw [schedStep]
  cases hr : round cur with
  | some cp =>
    obtain ⟨cand, p⟩ := cp
    cases be with
    | none =>
      refine ⟨h0, by simp only [updateOnSuccess]; linarith, ?_, ?_, ?_⟩
      · intro h hh
        simp only [updateOnSuccess, Option.some.injEq] at hh ⊢
        subst hh
        linarith
      · intro b hb
        simp only [updateOnSuccess, Option.some.injEq] at hb ⊢
        subst hb
        simp only
        linarith
      · intro b hb
        simp only [updateOnSuccess, Option.some.injEq] at hb ⊢
        subst hb
        exact ⟨cur, rfl, le_refl _⟩
    | some b0 =>
      have hc0 : cur ≤ b0.1 := hcb b0 rfl
      by_cases hle : cur ≤ b0.1
      · refine ⟨h0, by simp only [updateOnSuccess]; linarith, ?_, ?_, ?_⟩
        · intro h hh
          simp only [updateOnSuccess, Option.some.injEq] at hh ⊢
          subst hh
          linarith
        · intro b hb
          simp only [updateOnSuccess, if_pos hle, Option.some.injEq] at hb ⊢
          subst hb
          simp only
          linarith
        · intro b hb
          simp only [updateOnSuccess, if_pos hle, Option.some.injEq] at hb ⊢
          subst hb
          exact ⟨cur, rfl, le_refl _⟩
      · refine ⟨h0, by simp only [updateOnSuccess]; linarith, ?_, ?_, ?_⟩
        · intro h hh
          simp only [updateOnSuccess, Option.some.injEq] at hh ⊢
          subst hh
          linarith
        · intro b hb
          simp only [updateOnSuccess, if_neg hle, Option.some.injEq] at hb ⊢
          subst hb
          linarith
        · intro b hb
          simp only [updateOnSuccess, if_neg hle, Option.some.injEq] at hb ⊢
          subst hb
          exact ⟨cur, rfl, hc0⟩
  | none =>
    have h0c : 0 ≤ cur := le_trans h0 hlc
    cases hi with
    | none =>
      cases be with
      | some b0 =>
        obtain ⟨h3, hh3, _⟩ := hhb b0 rfl
        exact absurd hh3 (by simp)
      | none =>
        refine ⟨h0c, by simp only [updateOnFailure]; linarith, ?_, ?_, ?_⟩
        · intro h hh
          simp only [updateOnFailure] at hh
          exact absurd hh (by simp)
        · intro b hb
          simp only [updateOnFailure] at hb
          exact absurd hb (by simp)
        · intro b hb
          simp only [updateOnFailure] at hb
          exact absurd hb (by simp)
    | some h =>
      have hchh : cur ≤ h := hch h rfl
      refine ⟨h0c, by simp only [updateOnFailure]; linarith, ?_, ?_, ?_⟩
      · intro h2 hh2
        simp only [updateOnFailure, Option.some.injEq] at hh2 ⊢
        subst hh2
        linarith
      · intro b hb
        simp only [updateOnFailure] at hb ⊢
        obtain ⟨h3, hh3, hb3⟩ := hhb b hb
        simp only [Option.some.injEq] at hh3
        subst hh3
        linarith
      · intro b hb
        simp only [updateOnFailure] at hb ⊢
        obtain ⟨h3, hh3, hb3⟩ := hhb b hb
        simp only [Option.some.injEq] at hh3
        subst hh3
        exact ⟨h, rfl, hb3⟩

theorem schedInv_at (round : ℚ → Option (CandPixels × ℚ)) (c_init : ℚ)
    (hc : 0 ≤ c_init) (n : ℕ) : SchedInv (schedStateAt round c_init n) := by
  induction n with
  | zero => exact schedInv_init c_init hc
  | succ m ih => exact schedInv_step round _ ih

/-- C4: within one scheduler run starting from `c_init`, whenever a round
succeeds, the trade-off coefficient it tested is never larger than the best
(smallest) successful coefficient previously recorded in the same run — the
bisection brackets toward the success/failure boundary. -/
theorem sched_successful_round_le_best
    (round : ℚ → Option (CandPixels × ℚ)) (c_init : ℚ) (hc : 0 ≤ c_init)
    (n : ℕ) (b : ℚ × CandPixels × ℚ)
    (hb : (schedStateAt round c_init n).best = some b)
    (hsucc : (round (schedStateAt round c_init n).current).isSome = true) :
    (schedStateAt round c_init n).current ≤ b.1 :=
  (schedInv_at round c_init hc n).2.2.2.1 b hb

/-- Witness for C4: two successive successful rounds; the second round's
coefficient is below the first round's recorded best. -/
theorem sched_successful_round_le_best_witness :
    (0 : ℚ) ≤ 1000 ∧
    (schedStateAt (fun c => if c ≤ 1000 then some (([] : CandPixels), (1 : ℚ))
        else none) 1000 1).best = some (1000, [], 1) ∧
    ((fun c => if c ≤ (1000 : ℚ) then some (([] : CandPixels), (1 : ℚ))
        else none)
      (schedStateAt (fun c => if c ≤ 1000 then some (([] : CandPixels), (1 : ℚ))
        else none) 1000 1).current).isSome = true ∧
    (schedStateAt (fun c => if c ≤ 1000 then some (([] : CandPixels), (1 : ℚ))
        else none) 1000 1).current ≤ 1000 := by
  have hb : (schedStateAt (fun c => if c ≤ 1000 then
      some (([] : CandPixels), (1 : ℚ)) else none) 1000 1).best
      = some (1000, [], 1) := by
    norm_num [schedStateAt, schedStep, initTradeOff, updateOnSuccess]
  have hcur : (schedStateAt (fun c => if c ≤ 1000 then
      some (([] : CandPixels), (1 : ℚ)) else none) 1000 1).current = 500 := by
    norm_num [schedStateAt, schedStep, initTradeOff, updateOnSuccess]
  have hsucc : ((fun c => if c ≤ (1000 : ℚ) then
      some (([] : CandPixels), (1 : ℚ)) else none)
      (schedStateAt (fun c => if c ≤ 1000 then
        some (([] : CandPixels), (1 : ℚ)) else none) 1000 1).current).isSome
      = true := by
    rw [hcur]
    norm_num
  have hmain := sched_successful_round_le_best
    (fun c => if c ≤ 1000 then some (([] : CandPixels), (1 : ℚ)) else none)
    1000 (by norm_num) 1 (1000, [], 1) hb hsucc
  exact ⟨by norm_num, hb, hsucc, hmain⟩

/-- Modelled from the spec: one Constraint Scheduler round at trade-off
coefficient `c` (spec §4.3), absent from the artifact: run the Perturbation
Optimizer with that coefficient and report success exactly when the
achieved target-class probability exceeds the kappa-derived threshold. -/
def optRound (predict : CandPixels → ℚ) (channel_to_perturb : List String)
    (delta : ℚ → ℕ → String → List ℚ → List ℚ) (kappa : ℚ)
    (patience max_iterations : ℕ) (inst : CandPixels) (c : ℚ) :
    Option (CandPixels × ℚ) :=
  if successThreshold kappa <
      (optimize predict channel_to_perturb (delta c) kappa patience
        max_iterations inst).2.1 then
    some ((optimize predict channel_to_perturb (delta c) kappa patience
        max_iterations inst).1,
      (optimize predict channel_to_perturb (delta c) kappa patience
        max_iterations inst).2.1)
  else
    none

theorem optRound_success_prob (predict : CandPixels → ℚ)
    (channel_to_perturb : List String)
    (delta : ℚ → ℕ → String → List ℚ → List ℚ) (kappa : ℚ)
    (patience max_iterations : ℕ) (inst : CandPixels) (c : ℚ)
    (cand : CandPixels) (p : ℚ)
    (h : optRound predict channel_to_perturb delta kappa patience
      max_iterations inst c = some (cand, p)) :
    successThreshold kappa < p := by
  by_cases hc : successThreshold kappa <
      (optimize predict channel_to_perturb (delta c) kappa patience
        max_iterations inst).2.1
  · rw [optRound, if_pos hc] at h
    simp only [Option.some.injEq, Prod.mk.injEq] at h
    exact h.2 ▸ hc
  · rw [optRound, if_neg hc] at h
    exact absurd h (by simp)

theorem schedStateAt_best_prob (round : ℚ → Option (CandPixels × ℚ))
    (kappa : ℚ)
    (hround : ∀ c cand p, round c = some (cand, p) →
      successThreshold kappa < p)
    (c_init : ℚ) (n : ℕ) :
    ∀ b, (schedStateAt round c_init n).best = some b →
      successThreshold kappa < b.2.2 := by
  induction n with
  | zero =>
    intro b hb
    exact absurd hb (by simp [schedStateAt, initTradeOff])
  | succ m ih =>
    intro b hb
    rw [schedStateAt, schedStep] at hb
    cases hr : round (schedStateAt round c_init m).current with
    | some cp =>
      obtain ⟨cand, p⟩ := cp
      rw [hr] at hb
      have hp := hround _ cand p hr
      cases hbest : (schedStateAt round c_init m).best with
      | none =>
        simp only [updateOnSuccess, hbest, Option.some.injEq] at hb
        subst hb
        exact hp
      | some b0 =>
        simp only [updateOnSuccess, hbest] at hb
        by_cases hle : (schedStateAt round c_init m).current ≤ b0.1
        · rw [if_pos hle] at hb
          simp only [Option.some.injEq] at hb
          subst hb
          exact hp
        · rw [if_neg hle] at hb
          simp only [Option.some.injEq] at hb
          subst hb
          exact ih b0 hbest
    | none =>
      rw [hr] at hb
      simp only [updateOnFailure] at hb
      exact ih b hb

/-- C5: every successful ResultRecord produced by `search` (driven by the
optimizer rounds) reports an achieved target-class probability exceeding
the success threshold derived from `kappa`. -/
theorem search_success_exceeds_threshold (predict : CandPixels → ℚ)
    (channel_to_perturb : List String)
    (delta : ℚ → ℕ → String → List ℚ → List ℚ) (kappa : ℚ)
    (patience max_iterations : ℕ) (inst : CandPixels) (c_init : ℚ)
    (c_steps : ℕ) (cand : CandPixels) (p : ℚ)
    (h : search (optRound predict channel_to_perturb delta kappa patience
        max_iterations inst) c_init c_steps = .success cand p) :
    successThreshold kappa < p := by
  rw [search] at h
  cases hbest : (schedStateAt (optRound predict channel_to_perturb delta
      kappa patience max_iterations inst) c_init c_steps).best with
  | none =>
    rw [hbest] at h
    exact absurd h (by simp)
  | some b =>
    rw [hbest] at h
    simp only [ResultRecord.success.injEq] at h
    have := schedStateAt_best_prob
      (optRound predict channel_to_perturb delta kappa patience
        max_iterations inst) kappa
      (fun c cand' p' hc => optRound_success_prob predict
        channel_to_perturb delta kappa patience max_iterations inst c
        cand' p' hc)
      c_init c_steps b hbest
    exact h.2 ▸ this

/-- Witness for C5: a one-round run that succeeds immediately. -/
theorem search_success_exceeds_threshold_witness :
    search (optRound (fun _ => 1) [] (fun _ _ _ v => v) 0 0 0 []) 1 1
      = .success [] 1 ∧ successThreshold 0 < 1 := by
  have hs : search (optRound (fun _ => 1) [] (fun _ _ _ v => v) 0 0 0 []) 1 1
      = .success [] 1 := by
    norm_num [search, schedStateAt, schedStep, initTradeOff, updateOnSuccess,
      optRound, optimize, optLoop, initOptState, successThreshold]
  exact ⟨hs, search_success_exceeds_threshold (fun _ => 1) []
    (fun _ _ _ v => v) 0 0 0 [] 1 1 [] 1 hs⟩

/-- Modelled from the spec: the Dispatch Layer's per-instance job wrapper
(spec §4.4, §7), absent from the artifact: an unexpected exception inside a
per-instance job is captured as a `WorkerFailure` ResultRecord for that
instance. -/
def runJob (job : CandPixels → Except String ResultRecord)
    (inst : CandPixels) : ResultRecord :=
  match job inst with
  | .ok r => r
  | .error _ => .failure .WorkerFailure

/-- Modelled from the spec: `run_batch(instances, …)` of the Parallel
Dispatch Layer (spec §4.4), absent from the artifact: every instance's job
runs independently and contributes exactly one ResultRecord. -/
def run_batch (job : CandPixels → Except String ResultRecord)
    (instances : List CandPixels) : List ResultRecord :=
  instances.map (runJob job)

/-- C6: `run_batch` produces exactly one ResultRecord per input instance; a
failing instance yields a failure ResultRecord at its own position only,
and every sibling instance's record is exactly its own job's outcome,
unaffected by the failure. -/
theorem run_batch_fault_isolation
    (job : CandPixels → Except String ResultRecord)
    (instances : List CandPixels) :
    (run_batch job instances).length = instances.length ∧
    ∀ i (hi : i < instances.length),
      ((∃ e, job instances[i] = .error e) →
        (run_batch job instances)[i]? = some (.failure .WorkerFailure)) ∧
      ∀ j (hj : j < instances.length), j ≠ i →
        (run_batch job instances)[j]? = some (runJob job instances[j]) := by
  refine ⟨by simp [run_batch], ?_⟩
  intro i hi
  constructor
  · rintro ⟨e, he⟩
    rw [run_batch, List.getElem?_map, List.getElem?_eq_getElem hi]
    simp [runJob, he]
  · intro j hj hne
    rw [run_batch, List.getElem?_map, List.getElem?_eq_getElem hj]
    simp

/-- A job that raises on the empty instance and succeeds elsewhere, used to
exhibit fault isolation. -/
def wjob : CandPixels → Except String ResultRecord :=
  fun inst => if inst = [] then .error "boom" else .ok (.success inst 1)

/-- Witness for C6: the first instance's job raises; its record is a
failure while its sibling's record is its own successful outcome. -/
theorem run_batch_fault_isolation_witness :
    (∃ e, wjob [] = .error e) ∧
    (run_batch wjob [[], [("a", [1])]])[0]? =
      some (.failure .WorkerFailure) ∧
    (run_batch wjob [[], [("a", [1])]])[1]? =
      some (runJob wjob [("a", [1])]) := by
  have he : ∃ e, wjob ([] : CandPixels) = .error e := ⟨"boom", rfl⟩
  refine ⟨he, ?_, ?_⟩
  · exact ((run_batch_fault_isolation wjob [[], [("a", [1])]]).2 0
      (by norm_num)).1 he
  · exact ((run_batch_fault_isolation wjob [[], [("a", [1])]]).2 0
      (by norm_num)).2 1 (by norm_num) (by norm_num)

/-- Observable effects of the notebook's `download_and_unzip` helper. -/
inductive TutorialEffect
  | httpGet (url : String)
  | writeFile (path : String)
  | extractZip (file target : String)
  | message (text : String)
deriving DecidableEq, Repr

/-- The filesystem as `download_and_unzip` observes it: the set of existing
paths. -/
structure FileSystem where
  paths : List String
deriving DecidableEq, Repr

/-- Embedded from `examples/tutorial.ipynb`, `download_and_unzip`: when
`save_path` already exists it only prints a message; otherwise it issues
the HTTP GET, writes the downloaded file, and extracts the archive into
`save_path`. -/
def download_and_unzip (record_id filename save_path : String)
    (fs : FileSystem) : FileSystem × List TutorialEffect :=
  if fs.paths.contains save_path then
    (fs, [.message ("Data already exists in " ++ save_path)])
  else
    (⟨save_path :: filename :: fs.paths⟩,
     [.httpGet ("https://data.caltech.edu/records/" ++ record_id ++
        "/files/" ++ filename),
      .writeFile filename,
      .extractZip filename save_path,
      .message ("Downloaded " ++ filename ++ " to " ++ save_path)])

/-- Whether an effect mutates anything outside the process (HTTP request,
file write, archive extraction); printing a message does not. -/
def isMutatingEffect : TutorialEffect → Bool
  | .message _ => false
  | _ => true

/-- C9: when `save_path` already exists, `download_and_unzip` performs no
HTTP request, writes no file and extracts nothing — the filesystem is
returned unchanged, so a repeated call is a no-op. -/
theorem download_and_unzip_existing_noop (record_id filename save_path :
    String) (fs : FileSystem)
    (h : fs.paths.contains save_path = true) :
    (download_and_unzip record_id filename save_path fs).1 = fs ∧
    ∀ e ∈ (download_and_unzip record_id filename save_path fs).2,
      isMutatingEffect e = false := by
  rw [download_and_unzip, if_pos h]
  refine ⟨rfl, ?_⟩
  intro e he
  simp only [List.mem_singleton] at he
  subst he
  rfl

/-- Witness for C9 on a filesystem that already holds the save path. -/
theorem download_and_unzip_existing_noop_witness :
    (FileSystem.mk ["crc_tutorial"]).paths.contains "crc_tutorial" = true ∧
    ((download_and_unzip "pr14s-wgk05" "crc_tutorial.zip" "crc_tutorial"
        (FileSystem.mk ["crc_tutorial"])).1 =
      FileSystem.mk ["crc_tutorial"] ∧
    ∀ e ∈ (download_and_unzip "pr14s-wgk05" "crc_tutorial.zip"
        "crc_tutorial" (FileSystem.mk ["crc_tutorial"])).2,
      isMutatingEffect e = false) := by
  have h : (FileSystem.mk ["crc_tutorial"]).paths.contains "crc_tutorial"
      = true := by decide
  exact ⟨h, download_and_unzip_existing_noop "pr14s-wgk05"
    "crc_tutorial.zip" "crc_tutorial" (FileSystem.mk ["crc_tutorial"]) h⟩

/-- One row of `dataset.metadata` as the notebook's Step-5 filter reads it:
the boolean flags are 0/1 integers and `splits` is the split name. -/
structure MetadataRow where
  ImageNumber : Nat
  Contains_Tumor : Nat
  Contains_Tcytotoxic : Nat
  splits : String
deriving DecidableEq, Repr

/-- Embedded from `examples/tutorial.ipynb` (Step 5): the boolean-mask row
filter whose result the notebook passes to `get_counterfactual` as
`images`. -/
def select_metadata (metadata : List MetadataRow) : List MetadataRow :=
  metadata.filter (fun r =>
    (r.Contains_Tumor == 1) && (r.Contains_Tcytotoxic == 0) &&
      (r.splits == "train"))

/-- C10: the selected rows are exactly the rows of `dataset.metadata` with
Contains_Tumor = 1, Contains_Tcytotoxic = 0 and splits = "train" — the
training-split tumor patches without cytotoxic T cells. -/
theorem select_metadata_exact (metadata : List MetadataRow)
    (r : MetadataRow) :
    r ∈ select_metadata metadata ↔
      r ∈ metadata ∧ r.Contains_Tumor = 1 ∧ r.Contains_Tcytotoxic = 0 ∧
        r.splits = "train" := by
  simp [select_metadata, List.mem_filter, Bool.and_eq_true, beq_iff_eq,
    and_assoc]
